import Mathlib

/-!
Verification of the dojo rhythm-trainer core against its specification.

The Python sources are shallowly embedded as pure Lean functions:

* `src/pattern_display.py` — `HitAccuracy`, `KeyNote`, `PatternDisplay`
  and `register_key_press` (nearest-neighbor matching, tier
  classification, score/combo bookkeeping).
* `src/video_player.py` — `VPState` with `play`, `pause` and the
  buffer-driven `get_frame`; wall-clock time is passed explicitly as a
  rational `now` argument.
* `src/visual_trigger.py` — `VTState` with ROI selection and
  `detect_change`; frames are modelled as single-channel (grayscale)
  integer matrices, the external OpenCV BGR-to-gray conversion being
  identity on this representation.
* `src/pattern_manager.py` — `Pattern` construction and
  `PatternManager.load_pattern`; the filesystem/JSON layer is a
  parameter mapping filenames to absent / malformed / parsed data.
* `src/input_recorder.py` — `InputRecorder` and its press handler.

Mutation is modelled by explicit state passing: a Python method that
mutates `self` becomes a Lean function returning the new state (paired
with the method's return value where there is one).
-/

namespace Dojo

/-- Enum for hit accuracy feedback (pattern_display.HitAccuracy). -/
inductive HitAccuracy where
  | PERFECT
  | GOOD
  | OK
  | MISS
deriving DecidableEq, Repr

/-- A single key note on the timeline (pattern_display.KeyNote); only the
fields relevant to matching and scoring are kept (screen geometry is
rendering-only). -/
structure KeyNote where
  frame : Int
  key : String
  hit : Bool
  hit_frame : Option Int
  accuracy : Option HitAccuracy
deriving DecidableEq, Repr

/-- KeyNote.__init__: a fresh, unhit note. -/
def KeyNote.init (frame : Int) (key : String) : KeyNote :=
  { frame := frame, key := key, hit := false, hit_frame := none, accuracy := none }

/-- KeyNote.get_distance_from_center. -/
def KeyNote.get_distance_from_center (note : KeyNote) (current_frame : Int) : Int :=
  |current_frame - note.frame|

/-- PatternDisplay state (score/combo bookkeeping and the note list;
rendering-only fields are omitted). `recent_hits` stores
(current_frame, key, accuracy) triples as in the source. -/
structure PatternDisplay where
  notes : List KeyNote
  pressed_keys : List String
  recent_hits : List (Int × String × HitAccuracy)
  score : Int
  combo : Int
  max_combo : Int
deriving DecidableEq, Repr

/-- PatternDisplay.__init__ / reset: empty display state. -/
def PatternDisplay.init : PatternDisplay :=
  { notes := [], pressed_keys := [], recent_hits := [], score := 0, combo := 0, max_combo := 0 }

/-- A display state holding the given notes (used to build concrete states). -/
def mkPD (ns : List KeyNote) : PatternDisplay :=
  { PatternDisplay.init with notes := ns }

/-- The `self.pressed_keys.add(key)` step (a set add, modelled on a
duplicate-free list). -/
def addPressed (l : List String) (key : String) : List String :=
  if l.contains key then l else key :: l

/-- The note-scan loop of register_key_press: walks the note list in
order carrying the best (index, distance) so far, replacing it only on a
strictly smaller distance (Python starts from best_distance = inf, so the
first eligible note is always taken). Returns the selected note's index
and distance, or none when no unhit note matches the key. -/
def findBestAux (key : String) (cf : Int) :
    List KeyNote → Nat → Option (Nat × Int) → Option (Nat × Int)
  | [], _, best => best
  | n :: rest, i, best =>
    if n.hit = true ∨ n.key ≠ key then
      findBestAux key cf rest (i + 1) best
    else
      match best with
      | none => findBestAux key cf rest (i + 1) (some (i, n.get_distance_from_center cf))
      | some (bi, bd) =>
        if n.get_distance_from_center cf < bd then
          findBestAux key cf rest (i + 1) (some (i, n.get_distance_from_center cf))
        else findBestAux key cf rest (i + 1) (some (bi, bd))

/-- Selection of the best note for a press (see `findBestAux`). -/
def findBest (notes : List KeyNote) (key : String) (cf : Int) : Option (Nat × Int) :=
  findBestAux key cf notes 0 none

/-- The mutation `best_note.hit = True; best_note.hit_frame = ...; best_note.accuracy = ...`:
in-place mutation of the selected note, modelled as an update at its index. -/
def setHit : List KeyNote → Nat → Int → HitAccuracy → List KeyNote
  | [], _, _, _ => []
  | n :: rest, 0, cf, acc =>
      { n with hit := true, hit_frame := some cf, accuracy := some acc } :: rest
  | n :: rest, i + 1, cf, acc => n :: setHit rest i cf acc

/-- The `recent_hits.append(...)` step followed by the trim to at most 20 entries
(pop from the front when the length exceeds 20). -/
def pushRecent (l : List (Int × String × HitAccuracy)) (cf : Int) (key : String)
    (acc : HitAccuracy) : List (Int × String × HitAccuracy) :=
  let l2 := l ++ [(cf, key, acc)]
  if 20 < l2.length then l2.drop 1 else l2

/-- The tier of a press at the given distance, as computed by the
if/elif chain of register_key_press. -/
def tierOf (d : Int) : HitAccuracy :=
  if d < 3 then HitAccuracy.PERFECT
  else if d < 5 then HitAccuracy.GOOD
  else if d < 8 then HitAccuracy.OK
  else HitAccuracy.MISS

/-- The score increment of the same if/elif chain. -/
def pointsOf (d : Int) : Int :=
  if d < 3 then 100
  else if d < 5 then 75
  else if d < 8 then 25
  else 0

/-- PatternDisplay.register_key_press: returns the updated display state
and the accuracy result. -/
def register_key_press (pd : PatternDisplay) (key : String) (current_frame : Int) :
    PatternDisplay × HitAccuracy :=
  let pressed := addPressed pd.pressed_keys key
  match findBest pd.notes key current_frame with
  | some (i, best_distance) =>
    let accuracy := tierOf best_distance
    let score2 := pd.score + pointsOf best_distance
    if accuracy ≠ HitAccuracy.MISS then
      let combo2 := pd.combo + 1
      ({ notes := setHit pd.notes i current_frame accuracy,
         pressed_keys := pressed,
         recent_hits := pushRecent pd.recent_hits current_frame key accuracy,
         score := score2,
         combo := combo2,
         max_combo := max pd.max_combo combo2 }, accuracy)
    else
      ({ pd with pressed_keys := pressed,
                 recent_hits := pushRecent pd.recent_hits current_frame key accuracy,
                 score := score2,
                 combo := 0 }, accuracy)
  | none =>
    ({ pd with pressed_keys := pressed,
               recent_hits := pushRecent pd.recent_hits current_frame key HitAccuracy.MISS,
               combo := 0 }, HitAccuracy.MISS)

/-- Python's int() applied to a float: truncation toward zero. -/
def intTrunc (q : ℚ) : Int :=
  if 0 ≤ q then ⌊q⌋ else ⌈q⌉

/-- Video player state (video_player.VideoPlayer): the playback clock,
the shared frame buffer (a map from frame index to an abstract decoded
payload) and the seek-request flags read by the decode thread.
`cap_some` models `self.cap is not None` and `cap_opened` models
`self.cap.isOpened()`. Wall-clock time is passed explicitly to the
operations as a rational `now`. -/
structure VPState where
  cap_some : Bool
  cap_opened : Bool
  is_playing : Bool
  is_paused : Bool
  current_frame : Int
  fps : ℚ
  total_frames : Int
  start_time : ℚ
  pause_time : ℚ
  total_paused_time : ℚ
  frame_buffer : List (Int × Nat)
  seek_requested : Bool
  target_frame : Int
deriving DecidableEq, Repr

/-- VideoPlayer._request_seek: set the pending target and raise the
seek-requested event. -/
def request_seek (vp : VPState) (frame_num : Int) : VPState :=
  { vp with target_frame := frame_num, seek_requested := true }

/-- VideoPlayer.pause. -/
def pause (vp : VPState) (now : ℚ) : VPState :=
  { vp with is_paused := true, pause_time := now }

/-- VideoPlayer.play. -/
def play (vp : VPState) (now : ℚ) : VPState :=
  if vp.cap_some = false ∨ vp.cap_opened = false then vp
  else
    let was_paused := vp.is_paused
    let vp1 := { vp with is_playing := true, is_paused := false }
    if was_paused = true ∧ 0 < vp1.pause_time then
      { vp1 with total_paused_time := vp1.total_paused_time + (now - vp1.pause_time),
                 pause_time := 0 }
    else
      { vp1 with start_time := now, total_paused_time := 0 }

/-- VideoPlayer.stop: stop playback and release the capture. -/
def VPState.stop (vp : VPState) : VPState :=
  { vp with is_playing := false, is_paused := false, cap_opened := false }

/-- Keys of the frame-buffer map. -/
def bufKeys (buf : List (Int × Nat)) : List Int :=
  buf.map Prod.fst

/-- Frame-buffer map lookup. -/
def lookupBuf : List (Int × Nat) → Int → Option Nat
  | [], _ => none
  | (k, v) :: rest, t => if k = t then some v else lookupBuf rest t

/-- Insertion into a sorted list (for `sorted(self.frame_buffer.keys())`). -/
def insertSorted (x : Int) : List Int → List Int
  | [] => [x]
  | y :: ys => if x ≤ y then x :: y :: ys else y :: insertSorted x ys

/-- Python `sorted(...)` on the buffer's keys. -/
def sortInts (l : List Int) : List Int :=
  l.foldr insertSorted []

/-- One step of `min(available_frames, key=lambda x: abs(x - target))`:
keep the incumbent unless the new key is strictly closer (Python's min
keeps the first minimum). -/
def closestStep (t b y : Int) : Int :=
  if |y - t| < |b - t| then y else b

/-- The frame index that should be visible now: int(elapsed * fps)
clamped to [0, total_frames - 1] (the clamp in get_frame). -/
def targetOf (vp : VPState) (now : ℚ) : Int :=
  max 0 (min (intTrunc ((now - vp.start_time - vp.total_paused_time) * vp.fps))
    (vp.total_frames - 1))

/-- VideoPlayer.get_frame: returns the updated state, the success flag
and the frame payload handed to the caller. -/
def get_frame (vp : VPState) (now : ℚ) : VPState × Bool × Option Nat :=
  if vp.cap_some = false ∨ vp.is_playing = false then (vp, false, none)
  else if vp.is_paused = true then
    match lookupBuf vp.frame_buffer vp.current_frame with
    | some f => (vp, true, some f)
    | none => (request_seek vp vp.current_frame, false, none)
  else
    let target_frame := targetOf vp now
    if vp.total_frames - 1 ≤ target_frame then (vp.stop, false, none)
    else
      match lookupBuf vp.frame_buffer target_frame with
      | some f => ({ vp with current_frame := target_frame + 1 }, true, some f)
      | none =>
        match sortInts (bufKeys vp.frame_buffer) with
        | [] => (request_seek vp target_frame, false, none)
        | a :: rest =>
          let closest := rest.foldl (closestStep target_frame) a
          let vp1 := { vp with current_frame := closest + 1 }
          let vp2 := if 5 < |closest - target_frame| then request_seek vp1 target_frame
                     else vp1
          (vp2, true, lookupBuf vp.frame_buffer closest)

/-- A loaded, playing player with the given buffer, fps 30, 1000 frames,
started at wall-clock 0 with no pauses (used for concrete runs). -/
def mkVP (buf : List (Int × Nat)) : VPState :=
  { cap_some := true, cap_opened := true, is_playing := true, is_paused := false,
    current_frame := 0, fps := 30, total_frames := 1000, start_time := 0,
    pause_time := 0, total_paused_time := 0, frame_buffer := buf,
    seek_requested := false, target_frame := 0 }

/-- Frames are single-channel pixel matrices: rows of integer
intensities. The decoded images handed to the visual trigger are
3-channel in the source; the external OpenCV BGR-to-gray conversion is
modelled as the identity on this single-channel representation. -/
abbrev Frame := List (List Int)

/-- numpy `frame.shape[0]` (rows). -/
def shape0 (f : Frame) : Nat := f.length

/-- numpy `frame.shape[1]` (columns; frames are rectangular). -/
def shape1 (f : Frame) : Nat := (f.headD []).length

/-- cv2.cvtColor(roi, COLOR_BGR2GRAY): identity on the single-channel
model (see `Frame`). -/
def cvtColor_BGR2GRAY (f : Frame) : Frame := f

/-- Slicing `frame[y:y+h, x:x+w]` on a pixel matrix. -/
def extractROI (f : Frame) (x y w h : Nat) : Frame :=
  ((f.drop y).take h).map (fun row => (row.drop x).take w)

/-- cv2.absdiff: elementwise absolute difference. -/
def absdiffF (a b : Frame) : Frame :=
  List.zipWith (fun ra rb => List.zipWith (fun p q => |p - q|) ra rb) a b

/-- Sum of all pixels. -/
def sumF (f : Frame) : Int := (f.map fun r => r.sum).sum

/-- Number of pixels. -/
def countF (f : Frame) : Nat := (f.map List.length).sum

/-- np.mean over a pixel matrix. -/
def meanF (f : Frame) : ℚ := (sumF f : ℚ) / (countF f : ℚ)

/-- Visual trigger state (visual_trigger.VisualTrigger). The ROI is
(x, y, w, h) in nonnegative pixel coordinates. -/
structure VTState where
  roi : Option (Nat × Nat × Nat × Nat)
  last_frame_roi : Option Frame
  threshold : ℚ
  is_selecting : Bool
  selection_start : Option (Nat × Nat)
  selection_current : Option (Nat × Nat)
deriving DecidableEq, Repr

/-- VisualTrigger.__init__ with the given threshold (source default 25.0). -/
def VTState.init (threshold : ℚ) : VTState :=
  { roi := none, last_frame_roi := none, threshold := threshold,
    is_selecting := false, selection_start := none, selection_current := none }

/-- VisualTrigger.start_selection. -/
def start_selection (vt : VTState) (x y : Nat) : VTState :=
  { vt with is_selecting := true, selection_start := some (x, y),
            selection_current := some (x, y) }

/-- VisualTrigger.update_selection. -/
def update_selection (vt : VTState) (x y : Nat) : VTState :=
  if vt.is_selecting = true then { vt with selection_current := some (x, y) } else vt

/-- VisualTrigger.finish_selection: commits the drag rectangle as the ROI
when both dimensions exceed 10 pixels, clearing the stored snapshot;
`max - min` on the nonnegative coordinates is `abs(x2 - x1)`. -/
def finish_selection (vt : VTState) : VTState :=
  let vt2 :=
    match vt.is_selecting, vt.selection_start, vt.selection_current with
    | true, some s, some c =>
      let x := min s.1 c.1
      let y := min s.2 c.2
      let w := max s.1 c.1 - min s.1 c.1
      let h := max s.2 c.2 - min s.2 c.2
      if 10 < w ∧ 10 < h then
        { vt with roi := some (x, y, w, h), last_frame_roi := none }
      else vt
    | _, _, _ => vt
  { vt2 with is_selecting := false, selection_start := none, selection_current := none }

/-- VisualTrigger.cancel_selection. -/
def cancel_selection (vt : VTState) : VTState :=
  { vt with is_selecting := false, selection_start := none, selection_current := none }

/-- VisualTrigger.clear_roi. -/
def clear_roi (vt : VTState) : VTState :=
  { vt with roi := none, last_frame_roi := none }

/-- VisualTrigger.detect_change: returns the updated state and whether a
significant change was reported. -/
def detect_change (vt : VTState) (frame : Frame) : VTState × Bool :=
  match vt.roi with
  | none => (vt, false)
  | some (x, y, w, h) =>
    if shape0 frame < y + h ∨ shape1 frame < x + w then (vt, false)
    else
      let current_gray := cvtColor_BGR2GRAY (extractROI frame x y w h)
      match vt.last_frame_roi with
      | none => ({ vt with last_frame_roi := some current_gray }, false)
      | some last =>
        let mean_diff := meanF (absdiffF last current_gray)
        let vt2 := { vt with last_frame_roi := some current_gray }
        if vt.threshold < mean_diff then (vt2, true) else (vt2, false)

/-- One recorded input event (a keystroke dict): either a frame index or
an elapsed-seconds timestamp, a key string and a press/release action. -/
structure Keystroke where
  frame : Option Int
  time : Option ℚ
  key : String
  action : String
deriving DecidableEq, Repr, Inhabited

/-- A parsed recording file's contents. -/
structure RecordingData where
  video_url : String
  duration : ℚ
  recording_date : String
  keystrokes : List Keystroke
deriving DecidableEq, Repr

/-- The external file-system / JSON layer as seen by Pattern._load_from_file:
for a filename, `none` means the file is absent
(os.path.exists false), `some none` a present file whose contents fail to
parse (json.load raises), and `some (some data)` a parsed recording. -/
def FileSystem := String → Option (Option RecordingData)

/-- Pattern._load_from_file: raising is modelled by Except.error. -/
def load_from_file (fs : FileSystem) (filename : String) : Except String RecordingData :=
  match fs filename with
  | none => Except.error ("Recording file not found: " ++ filename)
  | some none => Except.error ("Invalid recording file: " ++ filename)
  | some (some data) => Except.ok data

/-- Stable insertion of a keystroke into a list sorted by the given key
(an element goes before the first strictly-later one, so equal keys keep
their original order, as Python's stable sort does). -/
def insertKeyed (keyf : Keystroke → ℚ) (x : Keystroke) : List Keystroke → List Keystroke
  | [] => [x]
  | y :: ys => if keyf x ≤ keyf y then x :: y :: ys else y :: insertKeyed keyf x ys

/-- Stable sort by the given key (list.sort(key=...)). -/
def sortKeyed (keyf : Keystroke → ℚ) (l : List Keystroke) : List Keystroke :=
  l.foldr (insertKeyed keyf) []

/-- Pattern._extract_key_presses: keep press events and sort them by
frame when the first press carries one, else by time (missing fields
default to 0, as dict.get does). -/
def extract_key_presses (keystrokes : List Keystroke) : List Keystroke :=
  let presses := keystrokes.filter (fun ks => ks.action = "press")
  if presses ≠ [] ∧ (presses.headD default).frame.isSome = true then
    sortKeyed (fun ks => ((ks.frame.getD 0 : Int) : ℚ)) presses
  else
    sortKeyed (fun ks => ks.time.getD 0) presses

/-- A loaded keystroke pattern (pattern_manager.Pattern). -/
structure Pattern where
  filename : String
  video_url : String
  duration : ℚ
  recording_date : String
  keystrokes : List Keystroke
  key_presses : List Keystroke
deriving DecidableEq, Repr

/-- Pattern.__init__: load from file then extract key presses; a failure
in loading propagates out of the constructor. -/
def Pattern.make (fs : FileSystem) (filename : String) : Except String Pattern :=
  match load_from_file fs filename with
  | Except.error e => Except.error e
  | Except.ok data =>
    Except.ok { filename := filename, video_url := data.video_url,
                duration := data.duration, recording_date := data.recording_date,
                keystrokes := data.keystrokes,
                key_presses := extract_key_presses data.keystrokes }

/-- Pattern manager state (pattern_manager.PatternManager); the patterns
dict is an association list keyed by filename. -/
structure PatternManager where
  recordings_dir : String
  patterns : List (String × Pattern)
  current_pattern : Option Pattern
deriving DecidableEq, Repr

/-- The assignment `self.patterns[filename] = pattern` on the association-list model. -/
def dictInsert (l : List (String × Pattern)) (k : String) (v : Pattern) :
    List (String × Pattern) :=
  if l.any (fun p => p.1 = k) then l.map (fun p => if p.1 = k then (k, v) else p)
  else l ++ [(k, v)]

/-- PatternManager.load_pattern: returns the updated manager and the
success flag; the except-clause reports the error and returns False. -/
def load_pattern (fs : FileSystem) (pm : PatternManager) (filename : String) :
    PatternManager × Bool :=
  match Pattern.make fs filename with
  | Except.ok pattern =>
    ({ pm with patterns := dictInsert pm.patterns filename pattern,
               current_pattern := some pattern }, true)
  | Except.error _ => (pm, false)

/-- A pynput key as seen by the recorder: a character key (key.char) or
a special key (rendered via str(key).replace, so Key.esc reads "esc"). -/
inductive PKey where
  | char (c : String)
  | special (name : String)
deriving DecidableEq, Repr

/-- keyboard.Key.esc. -/
def keyEsc : PKey := PKey.special "esc"

/-- InputRecorder._key_to_string. -/
def key_to_string : PKey → String
  | PKey.char c => c
  | PKey.special s => s

/-- Python's round(x, 3). Python rounds exact ties to even; this model
rounds ties up (the claims do not exercise tie values). -/
def roundTo3 (q : ℚ) : ℚ := ((round (q * 1000) : Int) : ℚ) / 1000

/-- Input recorder state (input_recorder.InputRecorder);
`has_escape_callback` records whether an escape callback is designated. -/
structure InputRecorder where
  keystrokes : List Keystroke
  start_time : ℚ
  is_recording : Bool
  has_escape_callback : Bool
deriving DecidableEq, Repr

/-- InputRecorder._on_press: returns the updated recorder and whether the
designated escape callback fired. -/
def on_press (r : InputRecorder) (key : PKey) (now : ℚ) : InputRecorder × Bool :=
  if r.is_recording = false then (r, false)
  else if key = keyEsc ∧ r.has_escape_callback = true then (r, true)
  else
    ({ r with keystrokes := r.keystrokes ++
        [{ frame := none, time := some (roundTo3 (now - r.start_time)),
           key := key_to_string key, action := "press" }] }, false)

/-- InputRecorder.record_frame_based_keystroke. -/
def record_frame_based_keystroke (r : InputRecorder) (frame : Int) (key : String)
    (action : String) : InputRecorder :=
  { r with keystrokes := r.keystrokes ++
      [{ frame := some frame, time := none, key := key, action := action }] }

/-- A trigger with the default threshold 25 and a committed 2-by-2 ROI at
the origin, before any detect_change call (concrete test state). -/
def vtSmall : VTState :=
  { VTState.init 25 with roi := some (0, 0, 2, 2) }

/-- A 2-by-2 all-zero frame. -/
def frameA : Frame := [[0, 0], [0, 0]]

/-- A 2-by-2 frame of intensity 30 (mean absolute difference 30 from
`frameA`, above the default threshold 25). -/
def frameB : Frame := [[30, 30], [30, 30]]

/-- A file system with no recording files. -/
def fsNone : FileSystem := fun _ => none

/-- A fresh pattern manager. -/
def pmEmpty : PatternManager :=
  { recordings_dir := "data/recordings", patterns := [], current_pattern := none }

/-- A recording recorder session with a designated escape callback. -/
def recActive : InputRecorder :=
  { keystrokes := [], start_time := 0, is_recording := true, has_escape_callback := true }

/-- The scan loop's result distance is a lower bound: it is at most the
distance carried in the accumulator and at most the distance of every
eligible (unhit, key-matching) note in the remaining list. -/
theorem findBestAux_le (key : String) (cf : Int) :
    ∀ (notes : List KeyNote) (i : Nat) (best : Option (Nat × Int)) (j : Nat) (d : Int),
      findBestAux key cf notes i best = some (j, d) →
      (∀ bi bd, best = some (bi, bd) → d ≤ bd) ∧
      (∀ m ∈ notes, m.hit = false → m.key = key → d ≤ m.get_distance_from_center cf) := by
  intro notes
  induction notes with
  | nil =>
    intro i best j d h
    simp only [findBestAux] at h
    subst h
    refine ⟨?_, by simp⟩
    intro bi bd hb
    cases hb
    exact le_refl d
  | cons n rest ih =>
    intro i best j d h
    by_cases hskip : n.hit = true ∨ n.key ≠ key
    · simp only [findBestAux, if_pos hskip] at h
      obtain ⟨h1, h2⟩ := ih (i + 1) best j d h
      refine ⟨h1, ?_⟩
      intro m hm hmh hmk
      rcases List.mem_cons.mp hm with rfl | hm2
      · rcases hskip with hh | hk
        · rw [hmh] at hh; cases hh
        · exact absurd hmk hk
      · exact h2 m hm2 hmh hmk
    · push_neg at hskip
      obtain ⟨hnh, hnk⟩ := hskip
      have hguard : ¬(n.hit = true ∨ n.key ≠ key) := by
        push_neg
        exact ⟨hnh, hnk⟩
      cases best with
      | none =>
        simp only [findBestAux, if_neg hguard] at h
        obtain ⟨h1, h2⟩ := ih (i + 1) _ j d h
        refine ⟨?_, ?_⟩
        · intro bi bd hb
          cases hb
        · intro m hm hmh hmk
          rcases List.mem_cons.mp hm with rfl | hm2
          · exact h1 i _ rfl
          · exact h2 m hm2 hmh hmk
      | some p =>
        obtain ⟨bi, bd⟩ := p
        by_cases hlt : n.get_distance_from_center cf < bd
        · simp only [findBestAux, if_neg hguard, if_pos hlt] at h
          obtain ⟨h1, h2⟩ := ih (i + 1) _ j d h
          have hdn : d ≤ n.get_distance_from_center cf := h1 i _ rfl
          refine ⟨?_, ?_⟩
          · intro bi2 bd2 hb
            cases hb
            exact le_of_lt (lt_of_le_of_lt hdn hlt)
          · intro m hm hmh hmk
            rcases List.mem_cons.mp hm with rfl | hm2
            · exact hdn
            · exact h2 m hm2 hmh hmk
        · simp only [findBestAux, if_neg hguard, if_neg hlt] at h
          obtain ⟨h1, h2⟩ := ih (i + 1) _ j d h
          have hdb : d ≤ bd := h1 bi bd rfl
          refine ⟨?_, ?_⟩
          · intro bi2 bd2 hb
            cases hb
            exact hdb
          · intro m hm hmh hmk
            rcases List.mem_cons.mp hm with rfl | hm2
            · exact le_trans hdb (le_of_not_lt hlt)
            · exact h2 m hm2 hmh hmk

/-- The scan loop's result is either the incoming accumulator or points
(relative to the running index) at an eligible note whose distance it
records. -/
theorem findBestAux_sel (key : String) (cf : Int) :
    ∀ (notes : List KeyNote) (i : Nat) (best : Option (Nat × Int)) (j : Nat) (d : Int),
      findBestAux key cf notes i best = some (j, d) →
      best = some (j, d) ∨
      (i ≤ j ∧ ∃ n, notes.get? (j - i) = some n ∧ n.hit = false ∧ n.key = key ∧
        d = n.get_distance_from_center cf) := by
  intro notes
  induction notes with
  | nil =>
    intro i best j d h
    simp only [findBestAux] at h
    exact Or.inl h
  | cons n rest ih =>
    intro i best j d h
    have step :
        ∀ (b2 : Option (Nat × Int)),
          findBestAux key cf rest (i + 1) b2 = some (j, d) →
          (b2 = some (j, d) ∨
            (i ≤ j ∧ ∃ m, (n :: rest).get? (j - i) = some m ∧ m.hit = false ∧
              m.key = key ∧ d = m.get_distance_from_center cf)) := by
      intro b2 h2
      rcases ih (i + 1) b2 j d h2 with hb | ⟨hij, m, hm, hmh, hmk, hmd⟩
      · exact Or.inl hb
      · refine Or.inr ⟨le_trans (Nat.le_succ i) hij, m, ?_, hmh, hmk, hmd⟩
        have hji : j - i = (j - (i + 1)) + 1 := by omega
        rw [hji]
        simpa using hm
    by_cases hskip : n.hit = true ∨ n.key ≠ key
    · simp only [findBestAux, if_pos hskip] at h
      exact step best h
    · push_neg at hskip
      obtain ⟨hnh, hnk⟩ := hskip
      have hguard : ¬(n.hit = true ∨ n.key ≠ key) := by
        push_neg
        exact ⟨hnh, hnk⟩
      have hnh2 : n.hit = false := by
        simpa using hnh
      have self_case :
          some (i, n.get_distance_from_center cf) = some (j, d) →
          (i ≤ j ∧ ∃ m, (n :: rest).get? (j - i) = some m ∧ m.hit = false ∧
            m.key = key ∧ d = m.get_distance_from_center cf) := by
        intro he
        have hij : i = j := congrArg (fun q => (q.getD (0, 0)).1) he
        have hdd : n.get_distance_from_center cf = d :=
          congrArg (fun q => (q.getD (0, 0)).2) he
        subst hij
        exact ⟨le_refl i, n, by simp, hnh2, hnk, hdd.symm⟩
      cases best with
      | none =>
        simp only [findBestAux, if_neg hguard] at h
        rcases step _ h with hb | hr
        · exact Or.inr (self_case hb)
        · exact Or.inr hr
      | some p =>
        obtain ⟨bi, bd⟩ := p
        by_cases hlt : n.get_distance_from_center cf < bd
        · simp only [findBestAux, if_neg hguard, if_pos hlt] at h
          rcases step _ h with hb | hr
          · exact Or.inr (self_case hb)
          · exact Or.inr hr
        · simp only [findBestAux, if_neg hguard, if_neg hlt] at h
          rcases step _ h with hb | hr
          · exact Or.inl hb
          · exact Or.inr hr

/-- Claim C1: among all unhit notes for the pressed key, register_key_press
selects one at minimum absolute frame distance (nearest-neighbor, not
first-in-time), and classifies the press by that distance. -/
theorem C1_nearest_neighbor (pd : PatternDisplay) (key : String) (cf : Int)
    (i : Nat) (d : Int) (h : findBest pd.notes key cf = some (i, d)) :
    (∃ n, pd.notes.get? i = some n ∧ n.hit = false ∧ n.key = key ∧
        d = n.get_distance_from_center cf) ∧
    (∀ m ∈ pd.notes, m.hit = false → m.key = key → d ≤ m.get_distance_from_center cf) ∧
    (register_key_press pd key cf).2 = tierOf d := by
  refine ⟨?_, ?_, ?_⟩
  · rcases findBestAux_sel key cf pd.notes 0 none i d h with hb | ⟨_, n, hn, hnh, hnk, hnd⟩
    · cases hb
    · exact ⟨n, by simpa using hn, hnh, hnk, hnd⟩
  · exact (findBestAux_le key cf pd.notes 0 none i d h).2
  · unfold register_key_press
    rw [h]
    by_cases ht : tierOf d = HitAccuracy.MISS
    · simp [ht]
    · simp [ht]

/-- Witness for C1: unhit notes for key a at frames 10 and 40 and a press at
frame 38 select the note at frame 40 (distance 2), which classifies PERFECT. -/
theorem C1_nearest_neighbor_witness :
    (findBest (mkPD [KeyNote.init 10 "a", KeyNote.init 40 "a"]).notes "a" 38 = some (1, 2)) ∧
    (tierOf 2 = HitAccuracy.PERFECT) ∧
    ((∃ n, (mkPD [KeyNote.init 10 "a", KeyNote.init 40 "a"]).notes.get? 1 = some n ∧
        n.hit = false ∧ n.key = "a" ∧ (2 : Int) = n.get_distance_from_center 38) ∧
      (∀ m ∈ (mkPD [KeyNote.init 10 "a", KeyNote.init 40 "a"]).notes,
        m.hit = false → m.key = "a" → (2 : Int) ≤ m.get_distance_from_center 38) ∧
      (register_key_press (mkPD [KeyNote.init 10 "a", KeyNote.init 40 "a"]) "a" 38).2 =
        tierOf 2) :=
  ⟨by decide, by decide,
    C1_nearest_neighbor (mkPD [KeyNote.init 10 "a", KeyNote.init 40 "a"]) "a" 38 1 2
      (by decide)⟩

/-- Claim C2: the tier and score increment of a press whose nearest unhit
note sits at distance d are decided by strict comparisons: d < 3 is
PERFECT (+100), 3 ≤ d < 5 is GOOD (+75), 5 ≤ d < 8 is OK (+25) and
8 ≤ d is MISS (+0); so d = 3, 5, 8 classify GOOD, OK, MISS. -/
theorem C2_tier_boundaries (pd : PatternDisplay) (key : String) (cf : Int)
    (i : Nat) (d : Int) (h : findBest pd.notes key cf = some (i, d)) :
    ((register_key_press pd key cf).2 = tierOf d ∧
     (register_key_press pd key cf).1.score = pd.score + pointsOf d) ∧
    (d < 3 → tierOf d = HitAccuracy.PERFECT ∧ pointsOf d = 100) ∧
    (3 ≤ d ∧ d < 5 → tierOf d = HitAccuracy.GOOD ∧ pointsOf d = 75) ∧
    (5 ≤ d ∧ d < 8 → tierOf d = HitAccuracy.OK ∧ pointsOf d = 25) ∧
    (8 ≤ d → tierOf d = HitAccuracy.MISS ∧ pointsOf d = 0) := by
  refine ⟨?_, ?_, ?_, ?_, ?_⟩
  · unfold register_key_press
    rw [h]
    by_cases ht : tierOf d = HitAccuracy.MISS
    · simp [ht]
    · simp [ht]
  · intro hd
    simp only [tierOf, pointsOf, if_pos hd]
    exact ⟨trivial, trivial⟩
  · rintro ⟨hd1, hd2⟩
    have h3 : ¬(d < 3) := by omega
    simp only [tierOf, pointsOf, if_neg h3, if_pos hd2]
    exact ⟨trivial, trivial⟩
  · rintro ⟨hd1, hd2⟩
    have h3 : ¬(d < 3) := by omega
    have h5 : ¬(d < 5) := by omega
    simp only [tierOf, pointsOf, if_neg h3, if_neg h5, if_pos hd2]
    exact ⟨trivial, trivial⟩
  · intro hd
    have h3 : ¬(d < 3) := by omega
    have h5 : ¬(d < 5) := by omega
    have h8 : ¬(d < 8) := by omega
    simp only [tierOf, pointsOf, if_neg h3, if_neg h5, if_neg h8]
    exact ⟨trivial, trivial⟩

/-- Witness for C2: a single note at frame 10; presses at frames 13, 15
and 18 (distances exactly 3, 5, 8) classify GOOD, OK and MISS with score
increments 75, 25 and 0. -/
theorem C2_tier_boundaries_witness :
    (findBest (mkPD [KeyNote.init 10 "a"]).notes "a" 13 = some (0, 3)) ∧
    ((register_key_press (mkPD [KeyNote.init 10 "a"]) "a" 13).2 = HitAccuracy.GOOD ∧
     (register_key_press (mkPD [KeyNote.init 10 "a"]) "a" 13).1.score = 75) ∧
    ((register_key_press (mkPD [KeyNote.init 10 "a"]) "a" 15).2 = HitAccuracy.OK ∧
     (register_key_press (mkPD [KeyNote.init 10 "a"]) "a" 15).1.score = 25) ∧
    ((register_key_press (mkPD [KeyNote.init 10 "a"]) "a" 18).2 = HitAccuracy.MISS ∧
     (register_key_press (mkPD [KeyNote.init 10 "a"]) "a" 18).1.score = 0) ∧
    (((register_key_press (mkPD [KeyNote.init 10 "a"]) "a" 13).2 = tierOf 3 ∧
      (register_key_press (mkPD [KeyNote.init 10 "a"]) "a" 13).1.score =
        (mkPD [KeyNote.init 10 "a"]).score + pointsOf 3) ∧
     ((3 : Int) < 3 → tierOf 3 = HitAccuracy.PERFECT ∧ pointsOf 3 = 100) ∧
     ((3 : Int) ≤ 3 ∧ (3 : Int) < 5 → tierOf 3 = HitAccuracy.GOOD ∧ pointsOf 3 = 75) ∧
     ((5 : Int) ≤ 3 ∧ (3 : Int) < 8 → tierOf 3 = HitAccuracy.OK ∧ pointsOf 3 = 25) ∧
     ((8 : Int) ≤ 3 → tierOf 3 = HitAccuracy.MISS ∧ pointsOf 3 = 0)) :=
  ⟨by decide, by decide, by decide, by decide,
    C2_tier_boundaries (mkPD [KeyNote.init 10 "a"]) "a" 13 0 3 (by decide)⟩

/-- setHit leaves every index other than the selected one unchanged. -/
theorem setHit_get_ne :
    ∀ (notes : List KeyNote) (i : Nat) (cf : Int) (acc : HitAccuracy) (j : Nat), j ≠ i →
      (setHit notes i cf acc).get? j = notes.get? j := by
  intro notes
  induction notes with
  | nil =>
    intro i cf acc j hj
    simp [setHit]
  | cons n rest ih =>
    intro i cf acc j hj
    cases i with
    | zero =>
      cases j with
      | zero => exact absurd rfl hj
      | succ j2 => simp [setHit]
    | succ i2 =>
      cases j with
      | zero => simp [setHit]
      | succ j2 =>
        simp only [setHit, List.get?_cons_succ]
        exact ih i2 cf acc j2 (by omega)

/-- setHit at the selected index marks the note hit and records the hit
frame and accuracy. -/
theorem setHit_get_eq :
    ∀ (notes : List KeyNote) (i : Nat) (cf : Int) (acc : HitAccuracy) (n : KeyNote),
      notes.get? i = some n →
      (setHit notes i cf acc).get? i =
        some { n with hit := true, hit_frame := some cf, accuracy := some acc } := by
  intro notes
  induction notes with
  | nil =>
    intro i cf acc n hn
    simp at hn
  | cons m rest ih =>
    intro i cf acc n hn
    cases i with
    | zero =>
      simp only [List.get?_cons_zero] at hn
      cases hn
      simp [setHit]
    | succ i2 =>
      simp only [List.get?_cons_succ] at hn
      simp only [setHit, List.get?_cons_succ]
      exact ih i2 cf acc n hn

/-- Claim C3: a note transitions unhit-to-hit at most once and is never
un-hit: every already-hit note is untouched by any press; a non-MISS press
marks exactly its selected (previously unhit) note hit, recording hit_frame
and accuracy; and a MISS press changes no note state at all. -/
theorem C3_hit_once (pd : PatternDisplay) (key : String) (cf : Int) :
    (∀ j n, pd.notes.get? j = some n → n.hit = true →
       (register_key_press pd key cf).1.notes.get? j = some n) ∧
    (∀ i d, findBest pd.notes key cf = some (i, d) →
       (register_key_press pd key cf).2 ≠ HitAccuracy.MISS →
       ∃ n, pd.notes.get? i = some n ∧ n.hit = false ∧
         (register_key_press pd key cf).1.notes.get? i =
           some { n with hit := true, hit_frame := some cf, accuracy := some ((register_key_press pd key cf).2) }) ∧
    ((register_key_press pd key cf).2 = HitAccuracy.MISS →
       (register_key_press pd key cf).1.notes = pd.notes) := by
  cases hfb : findBest pd.notes key cf with
  | none =>
    refine ⟨?_, ?_, ?_⟩
    · intro j n hj _
      simp [register_key_press, hfb]
      simpa using hj
    · intro i d hid
      simp at hid
    · intro _
      simp [register_key_press, hfb]
  | some p =>
    obtain ⟨i, d⟩ := p
    have hsel := findBestAux_sel key cf pd.notes 0 none i d hfb
    rcases hsel with hb | ⟨_, n0, hn0, hn0h, hn0k, hn0d⟩
    · cases hb
    have hn0get : pd.notes.get? i = some n0 := by simpa using hn0
    by_cases ht : tierOf d = HitAccuracy.MISS
    · refine ⟨?_, ?_, ?_⟩
      · intro j n hj _
        simp [register_key_press, hfb, ht]
        simpa using hj
      · intro i2 d2 hid2 hne
        have h2 : (register_key_press pd key cf).2 = tierOf d := by
          unfold register_key_press
          rw [hfb]
          simp [ht]
        rw [h2, ht] at hne
        exact absurd rfl hne
      · intro _
        simp [register_key_press, hfb, ht]
    · have hres : (register_key_press pd key cf).1.notes = setHit pd.notes i cf (tierOf d) ∧
          (register_key_press pd key cf).2 = tierOf d := by
        unfold register_key_press
        rw [hfb]
        simp [ht]
      refine ⟨?_, ?_, ?_⟩
      · intro j n hj hnh
        rw [hres.1]
        have hji : j ≠ i := by
          intro he
          subst he
          rw [hj] at hn0get
          cases hn0get
          rw [hnh] at hn0h
          cases hn0h
        rw [setHit_get_ne pd.notes i cf (tierOf d) j hji]
        exact hj
      · intro i2 d2 hid2 _
        injection hid2 with hpair
        injection hpair with h1 h2
        subst h1
        subst h2
        refine ⟨n0, hn0get, hn0h, ?_⟩
        rw [hres.1, hres.2]
        exact setHit_get_eq pd.notes i cf (tierOf d) n0 hn0get
      · intro hmiss
        rw [hres.2] at hmiss
        exact absurd hmiss ht

/-- Witness for C3: one note for key a at frame 10 and two presses at
frame 11, both within PERFECT range of it: the first scores PERFECT, the
second scores MISS and leaves the note list unchanged. -/
theorem C3_hit_once_witness :
    ((register_key_press (mkPD [KeyNote.init 10 "a"]) "a" 11).2 = HitAccuracy.PERFECT) ∧
    ((register_key_press
        (register_key_press (mkPD [KeyNote.init 10 "a"]) "a" 11).1 "a" 11).2 =
      HitAccuracy.MISS) ∧
    ((register_key_press
        (register_key_press (mkPD [KeyNote.init 10 "a"]) "a" 11).1 "a" 11).1.notes =
      (register_key_press (mkPD [KeyNote.init 10 "a"]) "a" 11).1.notes) :=
  ⟨by decide, by decide,
    (C3_hit_once (register_key_press (mkPD [KeyNote.init 10 "a"]) "a" 11).1 "a" 11).2.2
      (by decide)⟩

/-- Claim C4: a non-MISS press increments combo and folds it into
max_combo; a MISS press (including one finding no unhit note for the key)
resets combo to zero and leaves max_combo alone. -/
theorem C4_combo (pd : PatternDisplay) (key : String) (cf : Int) :
    ((register_key_press pd key cf).2 ≠ HitAccuracy.MISS →
       (register_key_press pd key cf).1.combo = pd.combo + 1 ∧
       (register_key_press pd key cf).1.max_combo = max pd.max_combo (pd.combo + 1)) ∧
    ((register_key_press pd key cf).2 = HitAccuracy.MISS →
       (register_key_press pd key cf).1.combo = 0 ∧
       (register_key_press pd key cf).1.max_combo = pd.max_combo) ∧
    (findBest pd.notes key cf = none →
       (register_key_press pd key cf).2 = HitAccuracy.MISS) := by
  cases hfb : findBest pd.notes key cf with
  | none =>
    refine ⟨?_, ?_, ?_⟩
    · intro hne
      have : (register_key_press pd key cf).2 = HitAccuracy.MISS := by
        simp [register_key_press, hfb]
      exact absurd this hne
    · intro _
      simp [register_key_press, hfb]
    · intro _
      simp [register_key_press, hfb]
  | some p =>
    obtain ⟨i, d⟩ := p
    by_cases ht : tierOf d = HitAccuracy.MISS
    · refine ⟨?_, ?_, ?_⟩
      · intro hne
        have : (register_key_press pd key cf).2 = HitAccuracy.MISS := by
          unfold register_key_press
          rw [hfb]
          simp [ht]
        exact absurd this hne
      · intro _
        unfold register_key_press
        rw [hfb]
        simp [ht]
      · intro hnone
        simp at hnone
    · refine ⟨?_, ?_, ?_⟩
      · intro _
        unfold register_key_press
        rw [hfb]
        simp [ht]
      · intro hmiss
        have h2 : (register_key_press pd key cf).2 = tierOf d := by
          unfold register_key_press
          rw [hfb]
          simp [ht]
        rw [h2] at hmiss
        exact absurd hmiss ht
      · intro hnone
        simp at hnone

/-- Witness for C4: notes for key a at frames 10, 20 and 40; presses at
frames 10, 20, 30, 40 score PERFECT, PERFECT, MISS, PERFECT with combo
values 1, 2, 0, 1 and final max_combo 2. -/
theorem C4_combo_witness :
    (((register_key_press (mkPD
        [KeyNote.init 10 "a", KeyNote.init 20 "a", KeyNote.init 40 "a"]) "a" 10).2 =
        HitAccuracy.PERFECT ∧
      ((register_key_press (mkPD
        [KeyNote.init 10 "a", KeyNote.init 20 "a", KeyNote.init 40 "a"]) "a" 10).1.combo =
        1)) ∧
     ((register_key_press (register_key_press (mkPD
        [KeyNote.init 10 "a", KeyNote.init 20 "a", KeyNote.init 40 "a"]) "a" 10).1
        "a" 20).2 = HitAccuracy.PERFECT ∧
      (register_key_press (register_key_press (mkPD
        [KeyNote.init 10 "a", KeyNote.init 20 "a", KeyNote.init 40 "a"]) "a" 10).1
        "a" 20).1.combo = 2) ∧
     ((register_key_press (register_key_press (register_key_press (mkPD
        [KeyNote.init 10 "a", KeyNote.init 20 "a", KeyNote.init 40 "a"]) "a" 10).1
        "a" 20).1 "a" 30).2 = HitAccuracy.MISS) ∧
     ((register_key_press (register_key_press (register_key_press (register_key_press (mkPD
        [KeyNote.init 10 "a", KeyNote.init 20 "a", KeyNote.init 40 "a"]) "a" 10).1
        "a" 20).1 "a" 30).1 "a" 40).2 = HitAccuracy.PERFECT ∧
      (register_key_press (register_key_press (register_key_press (register_key_press (mkPD
        [KeyNote.init 10 "a", KeyNote.init 20 "a", KeyNote.init 40 "a"]) "a" 10).1
        "a" 20).1 "a" 30).1 "a" 40).1.combo = 1 ∧
      (register_key_press (register_key_press (register_key_press (register_key_press (mkPD
        [KeyNote.init 10 "a", KeyNote.init 20 "a", KeyNote.init 40 "a"]) "a" 10).1
        "a" 20).1 "a" 30).1 "a" 40).1.max_combo = 2)) ∧
    ((register_key_press (register_key_press (register_key_press (mkPD
        [KeyNote.init 10 "a", KeyNote.init 20 "a", KeyNote.init 40 "a"]) "a" 10).1
        "a" 20).1 "a" 30).1.combo = 0 ∧
     (register_key_press (register_key_press (register_key_press (mkPD
        [KeyNote.init 10 "a", KeyNote.init 20 "a", KeyNote.init 40 "a"]) "a" 10).1
        "a" 20).1 "a" 30).1.max_combo =
       (register_key_press (register_key_press (mkPD
        [KeyNote.init 10 "a", KeyNote.init 20 "a", KeyNote.init 40 "a"]) "a" 10).1
        "a" 20).1.max_combo) :=
  ⟨⟨by decide, by decide, by decide, by decide⟩,
    (C4_combo (register_key_press (register_key_press (mkPD
        [KeyNote.init 10 "a", KeyNote.init 20 "a", KeyNote.init 40 "a"]) "a" 10).1
        "a" 20).1 "a" 30).2.1 (by decide)⟩

/-- The fold implementing Python's min-by-distance over the sorted key
list: the result is the start or a list element, and its distance to the
target is minimal among them. -/
theorem closestFold_spec (t : Int) :
    ∀ (l : List Int) (a : Int),
      (l.foldl (closestStep t) a = a ∨ l.foldl (closestStep t) a ∈ l) ∧
      |l.foldl (closestStep t) a - t| ≤ |a - t| ∧
      (∀ y ∈ l, |l.foldl (closestStep t) a - t| ≤ |y - t|) := by
  intro l
  induction l with
  | nil =>
    intro a
    exact ⟨Or.inl rfl, le_refl _, by simp⟩
  | cons x xs ih =>
    intro a
    obtain ⟨hmem, hle, hall⟩ := ih (closestStep t a x)
    have hstepa : |closestStep t a x - t| ≤ |a - t| := by
      unfold closestStep
      by_cases hc : |x - t| < |a - t|
      · rw [if_pos hc]
        exact le_of_lt hc
      · rw [if_neg hc]
    have hstepx : |closestStep t a x - t| ≤ |x - t| := by
      unfold closestStep
      by_cases hc : |x - t| < |a - t|
      · rw [if_pos hc]
      · rw [if_neg hc]
        exact le_of_not_lt hc
    have hstepor : closestStep t a x = a ∨ closestStep t a x = x := by
      unfold closestStep
      by_cases hc : |x - t| < |a - t|
      · rw [if_pos hc]
        exact Or.inr rfl
      · rw [if_neg hc]
        exact Or.inl rfl
    refine ⟨?_, ?_, ?_⟩
    · rw [List.foldl_cons]
      rcases hmem with he | hm
      · rw [he]
        rcases hstepor with ha | hx
        · exact Or.inl ha
        · rw [hx]
          exact Or.inr (List.mem_cons_self x xs)
      · exact Or.inr (List.mem_cons_of_mem x hm)
    · rw [List.foldl_cons]
      exact le_trans hle hstepa
    · intro y hy
      rw [List.foldl_cons]
      rcases List.mem_cons.mp hy with rfl | hy2
      · exact le_trans hle hstepx
      · exact hall y hy2

/-- Membership through sorted insertion. -/
theorem mem_insertSorted (x y : Int) :
    ∀ (l : List Int), y ∈ insertSorted x l ↔ y = x ∨ y ∈ l := by
  intro l
  induction l with
  | nil => simp [insertSorted]
  | cons z zs ih =>
    by_cases h : x ≤ z
    · simp [insertSorted, if_pos h]
    · simp only [insertSorted, if_neg h, List.mem_cons, ih]
      tauto

/-- Sorting the key list preserves membership. -/
theorem mem_sortInts (y : Int) : ∀ (l : List Int), y ∈ sortInts l ↔ y ∈ l := by
  intro l
  induction l with
  | nil => simp [sortInts]
  | cons x xs ih =>
    have hs : sortInts (x :: xs) = insertSorted x (sortInts xs) := rfl
    rw [hs, mem_insertSorted, ih]
    simp

/-- Sorted insertion never produces the empty list. -/
theorem insertSorted_ne_nil (x : Int) : ∀ (l : List Int), insertSorted x l ≠ [] := by
  intro l
  cases l with
  | nil => simp [insertSorted]
  | cons z zs =>
    by_cases h : x ≤ z
    · simp [insertSorted, if_pos h]
    · simp [insertSorted, if_neg h]

/-- The sorted key list is empty exactly when the key list is. -/
theorem sortInts_eq_nil_iff : ∀ (l : List Int), sortInts l = [] ↔ l = [] := by
  intro l
  cases l with
  | nil => simp [sortInts]
  | cons x xs =>
    constructor
    · intro h
      exact absurd h (insertSorted_ne_nil x (sortInts xs))
    · intro h
      cases h

/-- A key present in the buffer's key list resolves to a stored frame. -/
theorem lookupBuf_isSome_of_mem :
    ∀ (buf : List (Int × Nat)) (k : Int), k ∈ bufKeys buf →
      (lookupBuf buf k).isSome = true := by
  intro buf
  induction buf with
  | nil =>
    intro k hk
    simp [bufKeys] at hk
  | cons p rest ih =>
    intro k hk
    obtain ⟨k0, v0⟩ := p
    by_cases he : k0 = k
    · simp [lookupBuf, if_pos he]
    · have hk2 : k ∈ bufKeys rest := by
        simp only [bufKeys, List.map_cons, List.mem_cons] at hk
        rcases hk with rfl | hk3
        · exact absurd rfl he
        · exact hk3
      simp only [lookupBuf, if_neg he]
      exact ih k hk2

/-- Claim C5 as amended: while playing, when the target frame is not in
the buffer, get_frame returns "not ready" (requesting a seek) only when
the buffer is empty; otherwise it returns the closest cached frame
regardless of its distance to the target, requesting an exact seek only
when that distance exceeds 5 frames and leaving the seek state untouched
when it is within 5. -/
theorem C5_closest_frame (vp : VPState) (now : ℚ)
    (hcap : vp.cap_some = true) (hplay : vp.is_playing = true)
    (hpause : vp.is_paused = false)
    (hend : targetOf vp now < vp.total_frames - 1)
    (hmiss : lookupBuf vp.frame_buffer (targetOf vp now) = none) :
    (vp.frame_buffer = [] →
      get_frame vp now = (request_seek vp (targetOf vp now), false, none)) ∧
    (vp.frame_buffer ≠ [] →
      ∃ c, c ∈ bufKeys vp.frame_buffer ∧
        (∀ k ∈ bufKeys vp.frame_buffer,
          |c - targetOf vp now| ≤ |k - targetOf vp now|) ∧
        (get_frame vp now).2.1 = true ∧
        (get_frame vp now).2.2 = lookupBuf vp.frame_buffer c ∧
        (lookupBuf vp.frame_buffer c).isSome = true ∧
        (get_frame vp now).1.current_frame = c + 1 ∧
        (5 < |c - targetOf vp now| →
          (get_frame vp now).1.seek_requested = true ∧
          (get_frame vp now).1.target_frame = targetOf vp now) ∧
        (|c - targetOf vp now| ≤ 5 →
          (get_frame vp now).1.seek_requested = vp.seek_requested ∧
          (get_frame vp now).1.target_frame = vp.target_frame)) := by
  have hno : ¬(vp.cap_some = false ∨ vp.is_playing = false) := by
    simp [hcap, hplay]
  have hnp : ¬(vp.is_paused = true) := by simp [hpause]
  have hnend : ¬(vp.total_frames - 1 ≤ targetOf vp now) := not_le.mpr hend
  constructor
  · intro hb
    have hk : sortInts (bufKeys vp.frame_buffer) = [] := by
      rw [hb]
      rfl
    simp only [get_frame, if_neg hno, if_neg hnp, if_neg hnend, hmiss, hk]
  · intro hb
    cases hs : sortInts (bufKeys vp.frame_buffer) with
    | nil =>
      rw [sortInts_eq_nil_iff] at hs
      have : vp.frame_buffer = [] := by
        cases hbf : vp.frame_buffer with
        | nil => rfl
        | cons p ps =>
          rw [hbf] at hs
          simp [bufKeys] at hs
      exact absurd this hb
    | cons a rest =>
      obtain ⟨hcmem, hclea, hcall⟩ := closestFold_spec (targetOf vp now) rest a
      refine ⟨rest.foldl (closestStep (targetOf vp now)) a, ?_, ?_, ?_, ?_, ?_, ?_, ?_, ?_⟩
      · rw [← mem_sortInts, hs]
        rcases hcmem with he | hm
        · rw [he]
          exact List.mem_cons_self a rest
        · exact List.mem_cons_of_mem a hm
      · intro k hk2
        have hk3 : k ∈ a :: rest := by
          rw [← hs, mem_sortInts]
          exact hk2
        rcases List.mem_cons.mp hk3 with rfl | hkr
        · exact hclea
        · exact hcall k hkr
      · simp only [get_frame, if_neg hno, if_neg hnp, if_neg hnend, hmiss, hs]
      · simp only [get_frame, if_neg hno, if_neg hnp, if_neg hnend, hmiss, hs]
      · apply lookupBuf_isSome_of_mem
        rw [← mem_sortInts, hs]
        rcases hcmem with he | hm
        · rw [he]
          exact List.mem_cons_self a rest
        · exact List.mem_cons_of_mem a hm
      · simp only [get_frame, if_neg hno, if_neg hnp, if_neg hnend, hmiss, hs]
        by_cases h5 : 5 < |rest.foldl (closestStep (targetOf vp now)) a - targetOf vp now|
        · rw [if_pos h5]
          simp [request_seek]
        · rw [if_neg h5]
      · intro h5
        simp only [get_frame, if_neg hno, if_neg hnp, if_neg hnend, hmiss, hs, if_pos h5]
        simp [request_seek]
      · intro h5
        have hn5 : ¬(5 < |rest.foldl (closestStep (targetOf vp now)) a - targetOf vp now|) :=
          not_lt.mpr h5
        simp only [get_frame, if_neg hno, if_neg hnp, if_neg hnend, hmiss, hs, if_neg hn5]
        exact ⟨trivial, trivial⟩

/-- Witness for the amended C5: a playing player (fps 30, 1000 frames,
started at 0) whose buffer holds only frame 0 and whose wall-clock target
at time 10 is frame 300. -/
theorem C5_closest_frame_witness :
    ((mkVP [(0, 7)]).frame_buffer = [] →
      get_frame (mkVP [(0, 7)]) 10 =
        (request_seek (mkVP [(0, 7)]) (targetOf (mkVP [(0, 7)]) 10), false, none)) ∧
    ((mkVP [(0, 7)]).frame_buffer ≠ [] →
      ∃ c, c ∈ bufKeys (mkVP [(0, 7)]).frame_buffer ∧
        (∀ k ∈ bufKeys (mkVP [(0, 7)]).frame_buffer,
          |c - targetOf (mkVP [(0, 7)]) 10| ≤ |k - targetOf (mkVP [(0, 7)]) 10|) ∧
        (get_frame (mkVP [(0, 7)]) 10).2.1 = true ∧
        (get_frame (mkVP [(0, 7)]) 10).2.2 = lookupBuf (mkVP [(0, 7)]).frame_buffer c ∧
        (lookupBuf (mkVP [(0, 7)]).frame_buffer c).isSome = true ∧
        (get_frame (mkVP [(0, 7)]) 10).1.current_frame = c + 1 ∧
        (5 < |c - targetOf (mkVP [(0, 7)]) 10| →
          (get_frame (mkVP [(0, 7)]) 10).1.seek_requested = true ∧
          (get_frame (mkVP [(0, 7)]) 10).1.target_frame = targetOf (mkVP [(0, 7)]) 10) ∧
        (|c - targetOf (mkVP [(0, 7)]) 10| ≤ 5 →
          (get_frame (mkVP [(0, 7)]) 10).1.seek_requested = (mkVP [(0, 7)]).seek_requested ∧
          (get_frame (mkVP [(0, 7)]) 10).1.target_frame = (mkVP [(0, 7)]).target_frame)) :=
  C5_closest_frame (mkVP [(0, 7)]) 10 (by rfl) (by rfl) (by rfl)
    (by norm_num [targetOf, mkVP, intTrunc])
    (by norm_num [lookupBuf, mkVP, targetOf, intTrunc])

/-- Counterexample to C5 as stated: with only frame 0 cached and target
frame 300 (distance 300, far beyond the 5-frame tolerance), get_frame
still returns frame 0 instead of "not ready"; and with frame 98 cached
and target 100 (distance 2, within tolerance), it returns the frame
without re-requesting an exact seek. -/
theorem C5_counterexample :
    (lookupBuf (mkVP [(0, 7)]).frame_buffer (targetOf (mkVP [(0, 7)]) 10) = none) ∧
    (∀ k ∈ bufKeys (mkVP [(0, 7)]).frame_buffer, 5 < |k - targetOf (mkVP [(0, 7)]) 10|) ∧
    (get_frame (mkVP [(0, 7)]) 10).2.1 = true ∧
    (get_frame (mkVP [(0, 7)]) 10).2.2 = some 7 ∧
    (lookupBuf (mkVP [(98, 5)]).frame_buffer (targetOf (mkVP [(98, 5)]) (10 / 3)) = none) ∧
    (∃ k ∈ bufKeys (mkVP [(98, 5)]).frame_buffer,
      |k - targetOf (mkVP [(98, 5)]) (10 / 3)| ≤ 5) ∧
    (get_frame (mkVP [(98, 5)]) (10 / 3)).2.1 = true ∧
    (get_frame (mkVP [(98, 5)]) (10 / 3)).2.2 = some 5 ∧
    (get_frame (mkVP [(98, 5)]) (10 / 3)).1.seek_requested = false := by
  norm_num [get_frame, mkVP, targetOf, intTrunc, lookupBuf, sortInts, bufKeys,
    insertSorted, closestStep, request_seek]

/-- Claim C6 as amended: a second pause() call with no elapsed time in
between is a no-op, and in general pausing twice equals pausing once at
the second instant (the second call overwrites the recorded pause
instant, so it is not idempotent across elapsed time). -/
theorem C6_pause_last_wins (vp : VPState) (t1 t2 : ℚ) :
    pause (pause vp t1) t1 = pause vp t1 ∧
    pause (pause vp t1) t2 = pause vp t2 :=
  ⟨rfl, rfl⟩

/-- Counterexample to C6 as stated: pausing at time 10 and again at time
11 leaves a different clock state than pausing once (pause_time 11 vs
10), and after play() at time 12 the accumulated paused duration is 1
instead of 2, shifting the derived current frame (330 vs 300). -/
theorem C6_counterexample :
    (pause (pause (mkVP []) 10) 11 ≠ pause (mkVP []) 10) ∧
    ((play (pause (pause (mkVP []) 10) 11) 12).total_paused_time = 1) ∧
    ((play (pause (mkVP []) 10) 12).total_paused_time = 2) ∧
    (targetOf (play (pause (pause (mkVP []) 10) 11) 12) 12 = 330) ∧
    (targetOf (play (pause (mkVP []) 10) 12) 12 = 300) := by
  refine ⟨?_, ?_, ?_, ?_, ?_⟩
  · intro h
    have := congrArg VPState.pause_time h
    simp [pause, mkVP] at this
  · norm_num [play, pause, mkVP]
  · norm_num [play, pause, mkVP]
  · norm_num [targetOf, play, pause, mkVP, intTrunc]
  · norm_num [targetOf, play, pause, mkVP, intTrunc]

/-- Claim C7: committing or clearing an ROI clears the stored snapshot;
a detect_change call with no stored snapshot only seeds it and returns
false; an in-bounds call always stores the current grayscale ROI as the
new snapshot; and with a stored snapshot the call reports a change
exactly when the mean absolute difference against that snapshot strictly
exceeds the threshold. -/
theorem C7_edge_detect (vt : VTState) (frame : Frame) :
    ((clear_roi vt).last_frame_roi = none) ∧
    ((finish_selection vt).roi ≠ vt.roi → (finish_selection vt).last_frame_roi = none) ∧
    (vt.last_frame_roi = none → (detect_change vt frame).2 = false) ∧
    (∀ x y w h, vt.roi = some (x, y, w, h) →
      ¬(shape0 frame < y + h ∨ shape1 frame < x + w) →
      (detect_change vt frame).1.last_frame_roi =
        some (cvtColor_BGR2GRAY (extractROI frame x y w h))) ∧
    (∀ x y w h prev, vt.roi = some (x, y, w, h) → vt.last_frame_roi = some prev →
      ¬(shape0 frame < y + h ∨ shape1 frame < x + w) →
      ((detect_change vt frame).2 = true ↔
        vt.threshold < meanF (absdiffF prev (cvtColor_BGR2GRAY (extractROI frame x y w h))))) := by
  refine ⟨rfl, ?_, ?_, ?_, ?_⟩
  · intro hroi
    cases h1 : vt.is_selecting with
    | false =>
      simp only [finish_selection, h1] at hroi
      exact absurd rfl hroi
    | true =>
      cases h2 : vt.selection_start with
      | none =>
        simp only [finish_selection, h1, h2] at hroi
        exact absurd rfl hroi
      | some s =>
        cases h3 : vt.selection_current with
        | none =>
          simp only [finish_selection, h1, h2, h3] at hroi
          exact absurd rfl hroi
        | some c =>
          by_cases hwh : 10 < max s.1 c.1 - min s.1 c.1 ∧ 10 < max s.2 c.2 - min s.2 c.2
          · simp only [finish_selection, h1, h2, h3, if_pos hwh]
          · simp only [finish_selection, h1, h2, h3, if_neg hwh] at hroi
            exact absurd rfl hroi
  · intro hnone
    cases hroi : vt.roi with
    | none => simp [detect_change, hroi]
    | some r =>
      obtain ⟨x, y, w, h⟩ := r
      by_cases hb : shape0 frame < y + h ∨ shape1 frame < x + w
      · simp [detect_change, hroi, if_pos hb]
      · simp [detect_change, hroi, if_neg hb, hnone]
  · intro x y w h hroi hb
    cases hlast : vt.last_frame_roi with
    | none => simp [detect_change, hroi, if_neg hb, hlast]
    | some prev =>
      by_cases hm : vt.threshold <
          meanF (absdiffF prev (cvtColor_BGR2GRAY (extractROI frame x y w h)))
      · simp [detect_change, hroi, if_neg hb, hlast, if_pos hm]
      · simp [detect_change, hroi, if_neg hb, hlast, if_neg hm]
  · intro x y w h prev hroi hlast hb
    by_cases hm : vt.threshold <
        meanF (absdiffF prev (cvtColor_BGR2GRAY (extractROI frame x y w h)))
    · simp [detect_change, hroi, if_neg hb, hlast, if_pos hm, hm]
    · simp [detect_change, hroi, if_neg hb, hlast, if_neg hm, hm]

/-- Witness for C7: with threshold 25 and a 2-by-2 ROI at the origin, the
first call on an all-zero frame only seeds the snapshot and returns
false; the second call on an all-30 frame (mean absolute difference 30)
triggers, and the trigger condition is exactly the threshold comparison. -/
theorem C7_edge_detect_witness :
    ((detect_change vtSmall frameA).2 = false) ∧
    ((detect_change (detect_change vtSmall frameA).1 frameB).2 = true) ∧
    ((detect_change (detect_change vtSmall frameA).1 frameB).2 = true ↔
      (detect_change vtSmall frameA).1.threshold <
        meanF (absdiffF (cvtColor_BGR2GRAY (extractROI frameA 0 0 2 2))
          (cvtColor_BGR2GRAY (extractROI frameB 0 0 2 2)))) :=
  ⟨by norm_num [detect_change, vtSmall, VTState.init, frameA, shape0, shape1,
     extractROI, cvtColor_BGR2GRAY],
   by norm_num [detect_change, vtSmall, VTState.init, frameA, frameB, shape0, shape1,
     extractROI, cvtColor_BGR2GRAY, absdiffF, meanF, sumF, countF],
   (C7_edge_detect (detect_change vtSmall frameA).1 frameB).2.2.2.2 0 0 2 2
     (cvtColor_BGR2GRAY (extractROI frameA 0 0 2 2))
     (by norm_num [detect_change, vtSmall, VTState.init, frameA, shape0, shape1])
     (by norm_num [detect_change, vtSmall, VTState.init, frameA, shape0, shape1])
     (by norm_num [frameB, shape0, shape1])⟩

/-- Claim C10: when the active ROI extends past the frame's bounds,
detect_change returns false and leaves the whole trigger state (in
particular the stored snapshot) unchanged, so a following call behaves
as if this one had not happened. -/
theorem C10_roi_out_of_bounds (vt : VTState) (frame : Frame) (x y w h : Nat)
    (hroi : vt.roi = some (x, y, w, h))
    (hb : shape0 frame < y + h ∨ shape1 frame < x + w) :
    detect_change vt frame = (vt, false) ∧
    (∀ frame2, detect_change (detect_change vt frame).1 frame2 =
      detect_change vt frame2) := by
  have h1 : detect_change vt frame = (vt, false) := by
    simp [detect_change, hroi, if_pos hb]
  refine ⟨h1, ?_⟩
  intro frame2
  rw [h1]

/-- Witness for C10: a 2-by-2 frame with a 5-by-5 ROI: the call returns
false with the state (snapshot included) untouched. -/
theorem C10_roi_out_of_bounds_witness :
    detect_change { vtSmall with roi := some (0, 0, 5, 5) } frameA =
      ({ vtSmall with roi := some (0, 0, 5, 5) }, false) ∧
    (∀ frame2,
      detect_change (detect_change { vtSmall with roi := some (0, 0, 5, 5) } frameA).1
          frame2 =
        detect_change { vtSmall with roi := some (0, 0, 5, 5) } frame2) :=
  C10_roi_out_of_bounds { vtSmall with roi := some (0, 0, 5, 5) } frameA 0 0 5 5
    (by rfl) (by norm_num [frameA, shape0, shape1])

/-- Claim C8: a pattern load from an absent or malformed file yields an
error rather than a pattern, and a failed load leaves the manager
(patterns map and current_pattern) exactly as it was. -/
theorem C8_load_failure (fs : FileSystem) (pm : PatternManager) (filename : String) :
    (fs filename = none →
      Pattern.make fs filename =
        Except.error ("Recording file not found: " ++ filename)) ∧
    (fs filename = some none →
      Pattern.make fs filename =
        Except.error ("Invalid recording file: " ++ filename)) ∧
    (∀ e, Pattern.make fs filename = Except.error e →
      load_pattern fs pm filename = (pm, false)) := by
  refine ⟨?_, ?_, ?_⟩
  · intro hfs
    simp [Pattern.make, load_from_file, hfs]
  · intro hfs
    simp [Pattern.make, load_from_file, hfs]
  · intro e he
    simp [load_pattern, he]

/-- Witness for C8: loading a missing file into a fresh manager fails and
changes nothing. -/
theorem C8_load_failure_witness :
    load_pattern fsNone pmEmpty "missing.json" = (pmEmpty, false) :=
  (C8_load_failure fsNone pmEmpty "missing.json").2.2
    ("Recording file not found: " ++ "missing.json") (by rfl)

/-- Claim C9: while recording with a designated escape callback, an
escape key press fires the callback and leaves the recorder state (in
particular the recorded event list) unchanged: the press is not logged. -/
theorem C9_escape_no_event (r : InputRecorder) (now : ℚ)
    (hrec : r.is_recording = true) (hcb : r.has_escape_callback = true) :
    on_press r keyEsc now = (r, true) := by
  have h1 : ¬(r.is_recording = false) := by simp [hrec]
  simp only [on_press, if_neg h1]
  simp [hcb]

/-- Witness for C9: a recording session with an escape callback sees an
escape press at time 5: the callback fires and no event is appended. -/
theorem C9_escape_no_event_witness :
    on_press recActive keyEsc 5 = (recActive, true) :=
  C9_escape_no_event recActive 5 (by rfl) (by rfl)

end Dojo
